import Mathlib

/-
Verification of the OmegaConf interpolation evaluator.

This file gives a shallow embedding of the visitor methods of
`omegaconf/grammar_visitor.py` and `omegaconf/interpolation_visitor.py`
(class `GrammarVisitor` resp. `InterpolationVisitor`), of the built-in
resolvers `env` and `decode` from `omegaconf/built_in_resolvers.py`, and of
`ConfigKeyError` from `omegaconf/errors.py`.

Each ANTLR visitor method is embedded as a pure Lean function.  A method
that, in Python, visits a child context receives here the *result* of that
child visit as an argument (of the precise Python dynamic type that the
child visit produces), so every method is a total, executable function.
The configuration container (class `Container` of `base.py`, which is not
part of the sources under verification) is abstracted as a function from
dispatch calls to results; the visitor records the dispatch calls it makes.

Strings are modelled as `List Char`.  Python `float` values are modelled by
`PyFloat`, which distinguishes `nan` (the only property of floats the
visitors inspect is `math.isnan`).
-/

/-- Python strings are modelled as lists of characters. -/
abbrev Chars := List Char

/-- The single-quote character (Char.ofNat 39 is an apostrophe). -/
def squote : Char := Char.ofNat 39

/-- The double-quote character (Char.ofNat 34 is a double quote). -/
def dquote : Char := Char.ofNat 34

/-- The backslash character (Char.ofNat 92 is a backslash). -/
def bslash : Char := Char.ofNat 92

/-- Model of a Python float: the visitors only ever inspect `math.isnan`,
so finite values keep their rational value and the specials are tagged. -/
inductive PyFloat where
  | nan
  | inf
  | ninf
  | fin (q : ℚ)
  deriving DecidableEq

/-- A plain Python value, as produced by `_get_value` and by the primitive
parsing branches of the visitors. -/
inductive Obj where
  | none
  | bool (b : Bool)
  | int (n : Int)
  | float (f : PyFloat)
  | str (s : Chars)
  | list (xs : List Obj)
  | dict (entries : List (Obj × Obj))

/-- Python `isinstance(x, str)`. -/
def Obj.isStr : Obj → Bool
  | .str _ => true
  | _ => false

/-- Python `isinstance(x, float) and math.isnan(x)`. -/
def Obj.isNan : Obj → Bool
  | .float .nan => true
  | _ => false

/-- A configuration node (class `Node` of `base.py`, external to the sources
under verification): it carries the underlying value returned by
`_get_value` and the text produced by `str(node)`. -/
structure NodeObj where
  val : Obj
  render : Chars

/-- What a visit of an `interpolationNode` or `interpolationResolver`
context returns before the `assert ret is None or isinstance(ret, Node)`
check: the container is only *annotated* to return `Optional[Node]`, so the
model also allows an arbitrary object (`vObj`), which the assert rejects. -/
inductive VRes where
  | vNone
  | vNode (n : NodeObj)
  | vObj (o : Obj)

/-- The exceptions the embedded code can raise.  Exceptions raised inside
the abstract container (`ConfigKeyError`, `UnsupportedInterpolationType`,
missing-value errors, ...) are wrapped as `containerError` with an opaque
code; `pyTypeError` is Python's built-in `TypeError` (raised by `dict()` on
an unhashable key); `assertionError` is Python's `AssertionError`. -/
inductive Err where
  | interpolationTypeError
  | grammarTypeError
  | assertionError
  | pyTypeError
  | containerError (code : Nat)
  deriving DecidableEq

/-- `_utils._get_value` applied to the `Optional[Node]` result of
`visitInterpolation`: `None` stays `None`, a node yields its value. -/
def _get_value : Option NodeObj → Obj
  | Option.none => Obj.none
  | some n => n.val

/-- `_utils._get_value` applied to an arbitrary visit result (used by
`oc.decode` on the result of `resolve_parse_tree`). -/
def _get_value_any : VRes → Obj
  | .vNone => Obj.none
  | .vNode n => n.val
  | .vObj o => o

/-- One dispatch to `container.resolve_simple_interpolation`: the
`inter_type`, `inter_key` and (for resolver interpolations) `inputs_str`
keyword arguments. -/
structure Call where
  interType : Option Chars
  interKey : List Obj
  inputsStr : Option (List Chars)

/-- The abstract container: answers one `resolve_simple_interpolation`
call, either with a result or with an exception of its own. -/
abbrev SimpleEnv := Call → Except Nat VRes

/-- Lift a container answer into the visitor exception type. -/
def contLift : Except Nat VRes → Except Err VRes
  | .error n => .error (.containerError n)
  | .ok v => .ok v

/-- What `visitToplevel` / `visitConfigValue` return:
`Union[str, Optional[Node]]`. -/
inductive TRet where
  | s (text : Chars)
  | n (node : Option NodeObj)

/-- `str()` of `None` or of a node. -/
def strOfOptNode : Option NodeObj → Chars
  | Option.none => "None".toList
  | some nd => nd.render

/-- A value appearing in the `vals` list of `visitToplevel`: the result of
a `toplevelStr` child (a string) or of an `interpolation` child. -/
abbrev TopVal := Chars ⊕ Option NodeObj

/-- Python `str()` applied to one element of the `vals` list of
`visitToplevel`. -/
def strOfTopVal : TopVal → Chars
  | .inl t => t
  | .inr onode => strOfOptNode onode

/-- Python `str()` applied to the result of `resolve_interpolation`
(used when a quoted string is re-parsed). -/
def strOfTRet : TRet → Chars
  | .s t => t
  | .n onode => strOfOptNode onode

/-- The abstract `container.resolve_interpolation` used by
`_resolve_quoted_string` to re-parse the unquoted content as a plain
TOPLEVEL string: it maps the content to the evaluation result. -/
abbrev ReparseFn := Chars → Except Nat TRet

/--
`GrammarVisitor.visitInterpolation` and (identically)
`InterpolationVisitor.visitInterpolation`: visit the single
`interpolationNode | interpolationResolver` child, then
`assert ret is None or isinstance(ret, Node)`.
The argument is the result of visiting that child.
-/
def visitInterpolation (r : Except Err VRes) : Except Err (Option NodeObj) :=
  match r with
  | .error e => .error e
  | .ok .vNone => .ok Option.none
  | .ok (.vNode n) => .ok (some n)
  | .ok (.vObj _) => .error .assertionError

/-- The single child of a `configKey` context: a terminal (`ID` or
`LIST_INDEX`, whose text is a string) or a nested interpolation, given as
the result of visiting the interpolation's own child. -/
inductive ConfigKeySrc where
  | term (text : Chars)
  | interp (r : Except Err VRes)

/-- The child of a `toplevel` context together with its visit result: a
`toplevelStr` child (producing a string) or an `interpolation` child
(producing the argument later fed to `visitInterpolation`). -/
inductive TopChild where
  | tstr (r : Except Err Chars)
  | tinterp (r : Except Err VRes)

/-- Lexer token types of the OmegaConf grammar that the visitors
switch on. -/
inductive TokType where
  | ESC
  | ESC_INTER
  | TOP_CHAR
  | TOP_STR
  | ID
  | DOT
  | OTHER_CHAR
  | COLON
  deriving DecidableEq

/-- A lexer terminal: its token type and its `symbol.text`. -/
structure Tok where
  ttype : TokType
  text : Chars

/-- Python slice `s[1::2]`: every other character starting at index 1. -/
def pyTextFrom1Step2 : Chars → Chars
  | [] => []
  | [_] => []
  | _ :: c :: t => c :: pyTextFrom1Step2 t

/-- The text of an `ESC` token made of backslash-character pairs, one pair
per character of `cs`. -/
def escPairs (cs : Chars) : Chars :=
  (cs.map (fun c => [bslash, c])).flatten

/-- Python `s.replace(pat, rep)` for a two-character pattern `[a, b]`:
scan left to right, replace non-overlapping occurrences, never rescan the
replacement (the two patterns used by the quoted-string un-escaping are
both two characters long). -/
def pyReplace2 (a b : Char) (rep : Chars) : Chars → Chars
  | [] => []
  | [c] => [c]
  | c :: d :: t =>
    if c = a ∧ d = b then rep ++ pyReplace2 a b rep t
    else c :: pyReplace2 a b rep (d :: t)

/-- Single left-to-right scan un-escaping a quoted-string body: a
backslash followed by the matching quote yields the quote, a double
backslash yields one backslash, anything else is kept verbatim.  This is
the reference semantics the two `replace` passes of
`_resolve_quoted_string` are compared against. -/
def unescapeScan (q : Char) : Chars → Chars
  | [] => []
  | [c] => [c]
  | c :: d :: t =>
    if c = bslash ∧ d = q then q :: unescapeScan q t
    else if c = bslash ∧ d = bslash then bslash :: unescapeScan q t
    else c :: unescapeScan q (d :: t)

namespace GrammarVisitor

/--
`GrammarVisitor.visitConfigKey`: a terminal child returns its text; an
interpolation child is visited (`visitInterpolation`), unwrapped with
`_get_value`, and must be a string, otherwise `GrammarTypeError` is
raised.
-/
def visitConfigKey (src : ConfigKeySrc) : Except Err Chars :=
  match src with
  | .term t => .ok t
  | .interp r =>
    match visitInterpolation r with
    | .error e => .error e
    | .ok onode =>
      match _get_value onode with
      | .str s => .ok s
      | _ => .error .grammarTypeError

/-- `visitChildren` on a `toplevel` context: visit every child in order
(interpolation children go through `visitInterpolation`) and aggregate the
results; the first exception propagates. -/
def visitChildrenTop : List TopChild → Except Err (List TopVal)
  | [] => .ok []
  | .tstr r :: rest => do
      let t ← r
      let vs ← visitChildrenTop rest
      .ok (.inl t :: vs)
  | .tinterp r :: rest => do
      let onode ← visitInterpolation r
      let vs ← visitChildrenTop rest
      .ok (.inr onode :: vs)

/-- The test of `visitToplevel`:
`len(vals) == 1 and isinstance(ctx.getChild(0), InterpolationContext)`. -/
def isSingleInterp : List TopChild → Bool
  | [.tinterp _] => true
  | _ => false

/--
`GrammarVisitor.visitToplevel`: visit all children; if there is exactly one
child and it is an interpolation, return the resulting node as is
(`assert ret is None or isinstance(ret, Node)` holds by the type of
`visitInterpolation`); otherwise concatenate the `str()` of every value.
-/
def visitToplevel (children : List TopChild) : Except Err TRet :=
  match visitChildrenTop children with
  | .error e => .error e
  | .ok vals =>
    if isSingleInterp children then
      match vals with
      | [.inr onode] => .ok (.n onode)
      | _ => .ok (.s (vals.map strOfTopVal).flatten)
    else
      .ok (.s (vals.map strOfTopVal).flatten)

/-- An element of the sequence passed to `GrammarVisitor._unescape`: a
terminal node, or an interpolation context (given, as everywhere, by the
result of visiting its child). -/
inductive UnescItem where
  | term (t : Tok)
  | interpItem (r : Except Err VRes)

/--
`GrammarVisitor._unescape`: concatenate all symbols and interpolations.
An `ESC` terminal contributes `s.text[1::2]`, an `ESC_INTER` terminal
contributes `s.text[1:]`, any other terminal contributes its text, and an
interpolation contributes `str(self.visitInterpolation(node))`.
-/
def _unescape : List UnescItem → Except Err Chars
  | [] => .ok []
  | .term t :: rest => do
      let tail ← _unescape rest
      let piece :=
        match t.ttype with
        | .ESC => pyTextFrom1Step2 t.text
        | .ESC_INTER => t.text.drop 1
        | _ => t.text
      .ok (piece ++ tail)
  | .interpItem r :: rest => do
      let onode ← visitInterpolation r
      let tail ← _unescape rest
      .ok (strOfOptNode onode ++ tail)

/-- `GrammarVisitor.visitToplevelStr`: un-escape the children, which are
all terminals (`ESC | ESC_INTER | TOP_CHAR | TOP_STR`). -/
def visitToplevelStr (toks : List Tok) : Except Err Chars :=
  _unescape (toks.map .term)

/-- A child of an `interpolationNode` context between `INTER_OPEN` and
`INTER_CLOSE`: a `DOT` terminal or a `configKey` context. -/
inductive NodePart where
  | dot
  | key (src : ConfigKeySrc)

/-- The loop of `GrammarVisitor.visitInterpolationNode` building
`inter_key_tokens`: a `DOT` appends a verbatim dot, a `configKey` appends
its visit result. -/
def renderNodeParts : List NodePart → Except Err (List Chars)
  | [] => .ok []
  | .dot :: rest => do
      let vs ← renderNodeParts rest
      .ok (['.'] :: vs)
  | .key src :: rest => do
      let s ← visitConfigKey src
      let vs ← renderNodeParts rest
      .ok (s :: vs)

/--
`GrammarVisitor.visitInterpolationNode`: build the dot path from the
children (dots preserved verbatim), then call
`container.resolve_simple_interpolation` once with `inter_type=None` and
`inter_key` the one-element tuple holding the joined path.  The second
component records the dispatch calls performed by this method.
-/
def visitInterpolationNode (env : SimpleEnv) (parts : List NodePart) :
    Except Err VRes × List Call :=
  match renderNodeParts parts with
  | .error e => (.error e, [])
  | .ok toks =>
    let c : Call := ⟨Option.none, [Obj.str toks.flatten], Option.none⟩
    (contLift (env c), [c])

end GrammarVisitor

/-- The `(interpolation | ID)` resolver-name child of an
`interpolationResolver` context. -/
inductive ResolverNameSrc where
  | id (text : Chars)
  | interp (r : Except Err VRes)

namespace GrammarVisitor

/-- The resolver-name handling of `visitInterpolationResolver`: an `ID`
terminal gives its text; an interpolation is visited, unwrapped with
`_get_value`, and must be a string, otherwise `GrammarTypeError`. -/
def resolverNameOf (src : ResolverNameSrc) : Except Err Chars :=
  match src with
  | .id t => .ok t
  | .interp r =>
    match visitInterpolation r with
    | .error e => .error e
    | .ok onode =>
      match _get_value onode with
      | .str s => .ok s
      | _ => .error .grammarTypeError

end GrammarVisitor

/-- `visitSequence` (identical in both visitor classes): yield for each
element its unwrapped value together with the original source text
(`child.getText()`).  The elements are given as pairs of the already
unwrapped visit result and the source text; the loop collects values and
texts, propagating the first exception. -/
def visitSequenceVals : List (Except Err Obj × Chars) →
    Except Err (List Obj × List Chars)
  | [] => .ok ([], [])
  | (r, txt) :: rest => do
      let v ← r
      let (vs, ts) ← visitSequenceVals rest
      .ok (v :: vs, txt :: ts)

namespace GrammarVisitor

/--
`GrammarVisitor.visitInterpolationResolver`: resolve the resolver name
first (propagating its exceptions, with no dispatch), then visit the
argument sequence (again no dispatch on failure), then call
`container.resolve_simple_interpolation` exactly once with
`inter_type=resolver_name`, `inter_key=tuple(values)` and
`inputs_str=tuple(texts)`.
-/
def visitInterpolationResolver (env : SimpleEnv) (nameSrc : ResolverNameSrc)
    (args : List (Except Err Obj × Chars)) : Except Err VRes × List Call :=
  match resolverNameOf nameSrc with
  | .error e => (.error e, [])
  | .ok nm =>
    match visitSequenceVals args with
    | .error e => (.error e, [])
    | .ok (vals, txts) =>
      let c : Call := ⟨some nm, vals, some txts⟩
      (contLift (env c), [c])

end GrammarVisitor

/-- The `(ID | interpolation)` key child of a `dictKeyValuePair` (resp.
`keyValuePair`) context. -/
inductive DictKeySrc where
  | id (text : Chars)
  | interp (r : Except Err VRes)

namespace GrammarVisitor

/--
`GrammarVisitor.visitDictKeyValuePair`: an `ID` key is its text; an
interpolation key is visited and unwrapped, and a float `NaN` key raises
`GrammarTypeError`.  Then the value element is visited and unwrapped
(its already unwrapped result is the second argument).
-/
def visitDictKeyValuePair (keySrc : DictKeySrc) (valRes : Except Err Obj) :
    Except Err (Obj × Obj) := do
  let k ←
    match keySrc with
    | .id t => Except.ok (Obj.str t)
    | .interp r => do
        let onode ← visitInterpolation r
        let k := _get_value onode
        if k.isNan then Except.error Err.grammarTypeError else Except.ok k
  let v ← valRes
  .ok (k, v)

end GrammarVisitor

/-- Python hashability of the values the grammar can produce: lists and
dicts are unhashable, everything else is hashable. -/
def isHashable : Obj → Bool
  | .list _ => false
  | .dict _ => false
  | _ => true

/-- The numeric value classes Python `==` compares across `bool`, `int`
and `float`. -/
inductive ExtNum where
  | fin (q : ℚ)
  | pinf
  | minf
  deriving DecidableEq

/-- The numeric value of an object, if it is a `bool`, `int` or non-NaN
`float` (Python compares those across types; `nan` compares unequal to
everything). -/
def toNum : Obj → Option ExtNum
  | .bool b => some (.fin (if b then 1 else 0))
  | .int n => some (.fin (n : ℚ))
  | .float (.fin q) => some (.fin q)
  | .float .inf => some .pinf
  | .float .ninf => some .minf
  | _ => Option.none

/-- Numeric comparison of two optional numeric values: equal only when
both are numeric and equal. -/
def pyNumEq (x y : Option ExtNum) : Bool :=
  match x, y with
  | some a, some b => decide (a = b)
  | _, _ => false

/-- Python `==` on the hashable (primitive) values used as dict keys:
strings compare by content, `None` equals only `None`, numbers compare by
numeric value across `bool`, `int`, `float`, and `nan` equals nothing. -/
def pyEqPrim (a b : Obj) : Bool :=
  match a, b with
  | .str s, .str t => decide (s = t)
  | .none, .none => true
  | _, _ => pyNumEq (toNum a) (toNum b)

/-- CPython `d[k] = v` on an insertion-ordered dict: if an equal key is
present, its value is replaced in place (the stored key object is kept);
otherwise the pair is appended. -/
def pyDictAssign : List (Obj × Obj) → Obj → Obj → List (Obj × Obj)
  | [], k, v => [(k, v)]
  | e :: t, k, v =>
    if pyEqPrim e.1 k then (e.1, v) :: t else e :: pyDictAssign t k v

/-- CPython `d[k]`-style lookup: the value of the first entry with an
equal key. -/
def pyDictGet (d : List (Obj × Obj)) (k : Obj) : Option Obj :=
  match d with
  | [] => Option.none
  | e :: t => if pyEqPrim e.1 k then some e.2 else pyDictGet t k

/-- The value of the last pair of `kvs` whose key equals `k`. -/
def lastAssigned (kvs : List (Obj × Obj)) (k : Obj) : Option Obj :=
  ((kvs.filter (fun e => pyEqPrim e.1 k)).getLast?).map Prod.snd

namespace GrammarVisitor

/-- The loop of `GrammarVisitor.visitDictValue`: Python `dict(generator)`
pulls one key-value pair at a time from `visitDictKeyValuePair` (left to
right) and assigns it into the dict under construction, raising `TypeError`
on an unhashable key. -/
def visitDictValueAux (d : List (Obj × Obj)) :
    List (DictKeySrc × Except Err Obj) → Except Err (List (Obj × Obj))
  | [] => .ok d
  | (ks, vr) :: rest =>
    match visitDictKeyValuePair ks vr with
    | .error e => .error e
    | .ok (k, v) =>
      if isHashable k then visitDictValueAux (pyDictAssign d k v) rest
      else .error .pyTypeError

/-- `GrammarVisitor.visitDictValue`:
`dict(self.visitDictKeyValuePair(ctx.getChild(i)) for i in ...)`. -/
def visitDictValue (pairs : List (DictKeySrc × Except Err Obj)) :
    Except Err (List (Obj × Obj)) :=
  visitDictValueAux [] pairs

/-- Sequencing the key-value pair visits alone (without dict
construction): the list of evaluated pairs, or the first exception. -/
def seqKVPairs : List (DictKeySrc × Except Err Obj) →
    Except Err (List (Obj × Obj))
  | [] => .ok []
  | (ks, vr) :: rest => do
      let kv ← visitDictKeyValuePair ks vr
      let kvs ← seqKVPairs rest
      .ok (kv :: kvs)

/--
`GrammarVisitor._resolve_quoted_string`: check the lexeme shape
(`len >= 2`, equal first and last characters, which must be a single or
double quote), strip the two quotes, un-escape the content in two ordered
passes (first the escaped matching quote, then the double backslash),
re-parse the content through `container.resolve_interpolation` as a plain
TOPLEVEL string, and cast the result to `str`.
-/
def _resolve_quoted_string (reparse : ReparseFn) (quoted : Chars) :
    Except Err Chars :=
  match quoted with
  | [] => .error .assertionError
  | q0 :: rest =>
    if rest.getLast? = some q0 ∧ (q0 = squote ∨ q0 = dquote) then
      let content :=
        pyReplace2 bslash bslash [bslash]
          (pyReplace2 bslash q0 [q0] rest.dropLast)
      match reparse content with
      | .error n => .error (.containerError n)
      | .ok v => .ok (strOfTRet v)
    else .error .assertionError

end GrammarVisitor

namespace InterpolationVisitor

/--
`InterpolationVisitor.visitConfigKey`: same as the `GrammarVisitor`
version, but a non-string interpolation result raises
`InterpolationTypeError`.
-/
def visitConfigKey (src : ConfigKeySrc) : Except Err Chars :=
  match src with
  | .term t => .ok t
  | .interp r =>
    match visitInterpolation r with
    | .error e => .error e
    | .ok onode =>
      match _get_value onode with
      | .str s => .ok s
      | _ => .error .interpolationTypeError

/-- Visiting the `configKey` children collected by
`list(ctx.getChildren())[1:-1:2]` in order. -/
def seqConfigKeys : List ConfigKeySrc → Except Err (List Chars)
  | [] => .ok []
  | src :: rest => do
      let s ← visitConfigKey src
      let vs ← seqConfigKeys rest
      .ok (s :: vs)

/--
`InterpolationVisitor.visitInterpolationNode`: visit the `configKey`
children, join the results with dots, and call
`container.resolve_simple_interpolation` once with the legacy
`inter_type="str:"` and `inter_key` the one-element tuple holding the
joined path.
-/
def visitInterpolationNode (env : SimpleEnv) (keys : List ConfigKeySrc) :
    Except Err VRes × List Call :=
  match seqConfigKeys keys with
  | .error e => (.error e, [])
  | .ok res =>
    let c : Call :=
      ⟨some ("str:".toList), [Obj.str (List.intercalate ['.'] res)],
        Option.none⟩
    (contLift (env c), [c])

/-- The resolver-name handling of
`InterpolationVisitor.visitInterpolationResolver`: an `ID` terminal gives
its text; an interpolation is visited, unwrapped with `_get_value`, and
must be a string, otherwise `InterpolationTypeError`. -/
def resolverNameOf (src : ResolverNameSrc) : Except Err Chars :=
  match src with
  | .id t => .ok t
  | .interp r =>
    match visitInterpolation r with
    | .error e => .error e
    | .ok onode =>
      match _get_value onode with
      | .str s => .ok s
      | _ => .error .interpolationTypeError

/--
`InterpolationVisitor.visitInterpolationResolver`: resolve the resolver
name first (propagating its exceptions, with no dispatch), then visit the
argument sequence (again no dispatch on failure), then call
`container.resolve_simple_interpolation` exactly once with
`inter_type=resolver_name + ":"`, `inter_key=tuple(values)` and
`inputs_str=tuple(texts)`.
-/
def visitInterpolationResolver (env : SimpleEnv) (nameSrc : ResolverNameSrc)
    (args : List (Except Err Obj × Chars)) : Except Err VRes × List Call :=
  match resolverNameOf nameSrc with
  | .error e => (.error e, [])
  | .ok nm =>
    match visitSequenceVals args with
    | .error e => (.error e, [])
    | .ok (vals, txts) =>
      let c : Call := ⟨some (nm ++ [':']), vals, some txts⟩
      (contLift (env c), [c])

/--
`InterpolationVisitor.visitKeyValuePair`: a terminal key is its text; an
interpolation key is visited and unwrapped, and a float `NaN` key raises
`InterpolationTypeError` before the value element is visited and
unwrapped.
-/
def visitKeyValuePair (keySrc : DictKeySrc) (valRes : Except Err Obj) :
    Except Err (Obj × Obj) := do
  let k ←
    match keySrc with
    | .id t => Except.ok (Obj.str t)
    | .interp r => do
        let onode ← visitInterpolation r
        let k := _get_value onode
        if k.isNan then Except.error Err.interpolationTypeError
        else Except.ok k
  let v ← valRes
  .ok (k, v)

end InterpolationVisitor

/-- The `default` argument of the `env` resolver: either the sentinel
`_DEFAULT_MARKER_` (no default supplied) or an actual Python value. -/
inductive EnvDefault where
  | marker
  | given (v : Obj)

/-- The exceptions `env` can raise: Python `TypeError` (bad default) or
`KeyError` with its message. -/
inductive EnvError where
  | typeError
  | keyError (msg : Chars)
  deriving DecidableEq

/-- The message of the `KeyError` raised by `env`:
`Environment variable '<key>' not found`. -/
def envKeyErrorMsg (key : Chars) : Chars :=
  "Environment variable ".toList ++ [squote] ++ key ++ [squote] ++
    " not found".toList

/--
`built_in_resolvers.env`: first reject a default that is neither the
marker, nor `None`, nor a string (`TypeError`); then return the raw value
of the environment variable if set; otherwise return the default if one
was supplied, and raise
`KeyError("Environment variable '<key>' not found")` if not.
The process environment (`os.environ`) is the injected `environ` map.
-/
def env (environ : Chars → Option Chars) (key : Chars)
    (default : EnvDefault) : Except EnvError Obj :=
  let badDefault :=
    match default with
    | .marker => false
    | .given Obj.none => false
    | .given (Obj.str _) => false
    | .given _ => true
  if badDefault then .error .typeError
  else
    match environ key with
    | some v => .ok (.str v)
    | Option.none =>
      match default with
      | .given d => .ok d
      | .marker => .error (.keyError (envKeyErrorMsg key))

/-- The `parser_rule` argument of `grammar_parser.parse`. -/
inductive ParserRule where
  | configValue
  | singleElement
  deriving DecidableEq

/-- The `lexer_mode` argument of `grammar_parser.parse`. -/
inductive LexerMode where
  | TOPLEVEL
  | VALUE_MODE
  deriving DecidableEq

/-- The exception `oc.decode` can raise: Python `TypeError`. -/
inductive DecodeError where
  | typeError
  deriving DecidableEq

/--
`built_in_resolvers.decode`: `None` maps to `None`; a non-string,
non-`None` input raises `TypeError`; a string is parsed with the
`singleElement` rule in `VALUE_MODE` lexer mode, the parse tree is
evaluated by `_parent_.resolve_parse_tree`, and the result is unwrapped
with `_get_value`.  The parser and the evaluator are injected (`parse`
resp. `resolveParseTree`).
-/
def decode {T : Type} (parse : Chars → ParserRule → LexerMode → T)
    (resolveParseTree : T → VRes) (expr : Obj) : Except DecodeError Obj :=
  match expr with
  | .none => .ok .none
  | .str s =>
      .ok (_get_value_any (resolveParseTree (parse s .singleElement .VALUE_MODE)))
  | _ => .error .typeError

/-- `errors.ConfigKeyError`: `super().__init__(msg)` stores the message as
the single exception argument, and the `msg` attribute keeps it
unchanged. -/
structure ConfigKeyError where
  args : List Obj
  msg : Chars

/-- The `ConfigKeyError(msg)` constructor. -/
def ConfigKeyError.init (msg : Chars) : ConfigKeyError :=
  ⟨[Obj.str msg], msg⟩

/-- The overridden `ConfigKeyError.__str__`: returns `self.msg`
unchanged. -/
def ConfigKeyError.toStr (e : ConfigKeyError) : Chars :=
  e.msg

/-- Modelled from Python runtime semantics: the escaping of one character
inside `repr` of a string (the backslash and the chosen quote are
escaped; other escapes do not matter here and every character contributes
at least one character). -/
def pyReprEsc (q : Char) (c : Char) : Chars :=
  if c = bslash ∨ c = q then [bslash, c] else [c]

/-- Modelled from Python runtime semantics: `repr` of a string, as used by
`KeyError.__str__` (the quirk of https://bugs.python.org/issue2651 cited
in `errors.py`): pick a quote character (double quote only when the text
contains a single quote but no double quote), escape the body and wrap it
in the quotes. -/
def pyReprStr (s : Chars) : Chars :=
  let q := if squote ∈ s ∧ ¬ dquote ∈ s then dquote else squote
  q :: (s.flatMap (pyReprEsc q) ++ [q])

/-- Modelled from Python runtime semantics: `str()` of a plain
`KeyError` carrying one string argument returns the `repr` of that
argument, not the argument itself. -/
def plainKeyErrorToStr (msg : Chars) : Chars :=
  pyReprStr msg

/-- A container for witnesses: answers every dispatch with `None`. -/
def env0 : SimpleEnv := fun _ => .ok .vNone

/-- A re-parse function for witnesses: evaluates every string to
itself. -/
def reparse0 : ReparseFn := fun s => .ok (.s s)

/-- A parser for witnesses. -/
def parse0 : Chars → ParserRule → LexerMode → Chars := fun s _ _ => s

/-- A parse-tree evaluator for witnesses. -/
def resolveParseTree0 : Chars → VRes := fun s => .vObj (.str s)

/-- An environment-variable map for witnesses: only `PATH` is set. -/
def environ0 : Chars → Option Chars := fun k =>
  if k = "PATH".toList then some ("/usr/bin".toList) else Option.none

/-- Dict-literal pairs for the C9 witness: the key `a` appears twice. -/
def pairs0 : List (DictKeySrc × Except Err Obj) :=
  [(.id ['a'], .ok (.int 1)), (.id ['a'], .ok (.int 2))]

/-- The evaluated key-value pairs of `pairs0`. -/
def kvs0 : List (Obj × Obj) :=
  [(.str ['a'], .int 1), (.str ['a'], .int 2)]

theorem pyReplace2_cons_of_ne (a b : Char) (rep : Chars) (c : Char)
    (s : Chars) (h : c ≠ a) :
    pyReplace2 a b rep (c :: s) = c :: pyReplace2 a b rep s := by
  cases s with
  | nil => simp [pyReplace2]
  | cons d t => simp [pyReplace2, h]

theorem unescapeScan_cons_of_ne (q c : Char) (s : Chars) (h : c ≠ bslash) :
    unescapeScan q (c :: s) = c :: unescapeScan q s := by
  cases s with
  | nil => simp [unescapeScan]
  | cons d t => simp [unescapeScan, h]

theorem twoPass_eq_unescapeScan (q : Char) (hq : q ≠ bslash) (s : Chars) :
    pyReplace2 bslash bslash [bslash] (pyReplace2 bslash q [q] s) =
      unescapeScan q s := by
  have main : ∀ n (s : Chars), s.length ≤ n →
      pyReplace2 bslash bslash [bslash] (pyReplace2 bslash q [q] s) =
        unescapeScan q s := by
    intro n
    induction n with
    | zero =>
      intro s hs
      have hnil : s = [] := List.length_eq_zero.mp (Nat.le_zero.mp hs)
      subst hnil
      simp [pyReplace2, unescapeScan]
    | succ n ih =>
      intro s hs
      cases s with
      | nil => simp [pyReplace2, unescapeScan]
      | cons c rest =>
        cases rest with
        | nil => simp [pyReplace2, unescapeScan]
        | cons d t =>
          have hlen : t.length + 2 ≤ n + 1 := by simpa using hs
          by_cases hc : c = bslash
          · subst hc
            by_cases hd : d = q
            · subst hd
              have h1 : pyReplace2 bslash d [d] (bslash :: d :: t) =
                  d :: pyReplace2 bslash d [d] t := by
                simp [pyReplace2]
              rw [h1, pyReplace2_cons_of_ne _ _ _ _ _ hq,
                ih t (by omega)]
              simp [unescapeScan]
            · by_cases hdb : d = bslash
              · subst hdb
                cases t with
                | nil => simp [pyReplace2, unescapeScan, Ne.symm hq]
                | cons e t2 =>
                  have hlen2 : t2.length + 3 ≤ n + 1 := by simpa using hs
                  by_cases he : e = q
                  · subst he
                    have h1 : pyReplace2 bslash e [e]
                        (bslash :: bslash :: e :: t2) =
                        bslash :: e :: pyReplace2 bslash e [e] t2 := by
                      simp [pyReplace2, Ne.symm hq]
                    rw [h1]
                    have h2 : pyReplace2 bslash bslash [bslash]
                        (bslash :: e :: pyReplace2 bslash e [e] t2) =
                        bslash :: e ::
                          pyReplace2 bslash bslash [bslash]
                            (pyReplace2 bslash e [e] t2) := by
                      have hx : ¬ (bslash = bslash ∧ e = bslash) := by
                        simp [hq]
                      cases hz : pyReplace2 bslash e [e] t2 with
                      | nil => simp [pyReplace2, hq]
                      | cons f u => simp [pyReplace2, hq]
                    rw [h2, ih t2 (by omega)]
                    have h3 : unescapeScan e (bslash :: bslash :: e :: t2) =
                        bslash :: unescapeScan e (e :: t2) := by
                      simp [unescapeScan, Ne.symm hq]
                    rw [h3, unescapeScan_cons_of_ne _ _ _ hq]
                  · have h1 : pyReplace2 bslash q [q]
                        (bslash :: bslash :: e :: t2) =
                        bslash :: bslash :: pyReplace2 bslash q [q] (e :: t2) := by
                      simp [pyReplace2, Ne.symm hq, he]
                    rw [h1]
                    have h2 : pyReplace2 bslash bslash [bslash]
                        (bslash :: bslash :: pyReplace2 bslash q [q] (e :: t2)) =
                        bslash :: pyReplace2 bslash bslash [bslash]
                          (pyReplace2 bslash q [q] (e :: t2)) := by
                      simp [pyReplace2]
                    rw [h2, ih (e :: t2) (by simp; omega)]
                    have h3 : unescapeScan q (bslash :: bslash :: e :: t2) =
                        bslash :: unescapeScan q (e :: t2) := by
                      simp [unescapeScan, Ne.symm hq]
                    rw [h3]
              · have h1 : pyReplace2 bslash q [q] (bslash :: d :: t) =
                    bslash :: pyReplace2 bslash q [q] (d :: t) := by
                  simp [pyReplace2, hd]
                rw [h1, pyReplace2_cons_of_ne _ _ _ _ _ hdb]
                have h2 : pyReplace2 bslash bslash [bslash]
                    (bslash :: d :: pyReplace2 bslash q [q] t) =
                    bslash :: d :: pyReplace2 bslash bslash [bslash]
                      (pyReplace2 bslash q [q] t) := by
                  have := pyReplace2_cons_of_ne bslash bslash [bslash] d
                      (pyReplace2 bslash q [q] t) hdb
                  simp [pyReplace2, hdb, this]
                rw [h2, ih t (by omega)]
                have h3 : unescapeScan q (bslash :: d :: t) =
                    bslash :: unescapeScan q (d :: t) := by
                  simp [unescapeScan, hd, hdb]
                rw [h3, unescapeScan_cons_of_ne _ _ _ hdb]
          · rw [pyReplace2_cons_of_ne _ _ _ _ _ hc,
              pyReplace2_cons_of_ne _ _ _ _ _ hc,
              unescapeScan_cons_of_ne _ _ _ hc,
              ih (d :: t) (by simp; omega)]
  exact main s.length s le_rfl

theorem pyTextFrom1Step2_escPairs (cs : Chars) :
    pyTextFrom1Step2 (escPairs cs) = cs := by
  induction cs with
  | nil => simp [escPairs, pyTextFrom1Step2]
  | cons c t ih =>
    simpa [escPairs, pyTextFrom1Step2] using ih

theorem flatMap_length_ge (f : Char → Chars)
    (hf : ∀ c, 1 ≤ (f c).length) (s : Chars) :
    s.length ≤ (s.flatMap f).length := by
  induction s with
  | nil => simp
  | cons c t ih =>
    have := hf c
    simp only [List.flatMap_cons, List.length_append, List.length_cons]
    omega

theorem pyNumEq_symm (x y : Option ExtNum) : pyNumEq x y = pyNumEq y x := by
  cases x <;> cases y <;> simp [pyNumEq, eq_comm]

theorem pyNumEq_trans {x y z : Option ExtNum} (h1 : pyNumEq x y = true)
    (h2 : pyNumEq y z = true) : pyNumEq x z = true := by
  cases x <;> cases y <;> cases z <;> simp_all [pyNumEq]

theorem pyEqPrim_symm (a b : Obj) : pyEqPrim a b = pyEqPrim b a := by
  cases a <;> cases b <;>
    simp only [pyEqPrim] <;>
    first
      | rfl
      | exact pyNumEq_symm _ _
      | simp [eq_comm]

theorem pyEqPrim_true_elim {a b : Obj} (h : pyEqPrim a b = true) :
    a = b ∨ pyNumEq (toNum a) (toNum b) = true := by
  cases a <;> cases b <;> simp only [pyEqPrim] at h <;>
    first
      | (left; rfl)
      | (left; exact congrArg Obj.str (of_decide_eq_true h))
      | (right; exact h)

theorem pyEqPrim_of_pyNumEq {a b : Obj}
    (h : pyNumEq (toNum a) (toNum b) = true) : pyEqPrim a b = true := by
  cases a <;> cases b <;> simp only [pyEqPrim] <;>
    first
      | rfl
      | exact h
      | simp [toNum, pyNumEq] at h

theorem pyEqPrim_trans {a b c : Obj} (h1 : pyEqPrim a b = true)
    (h2 : pyEqPrim b c = true) : pyEqPrim a c = true := by
  rcases pyEqPrim_true_elim h1 with rfl | hn1
  · exact h2
  rcases pyEqPrim_true_elim h2 with rfl | hn2
  · exact h1
  exact pyEqPrim_of_pyNumEq (pyNumEq_trans hn1 hn2)

theorem pyDictGet_assign_eq (d : List (Obj × Obj)) (ka : Obj) (v : Obj)
    (k : Obj) (h : pyEqPrim ka k = true) :
    pyDictGet (pyDictAssign d ka v) k = some v := by
  induction d with
  | nil => simp [pyDictAssign, pyDictGet, h]
  | cons e t ih =>
    cases he : pyEqPrim e.1 ka with
    | true =>
      have hek : pyEqPrim e.1 k = true := pyEqPrim_trans he h
      simp [pyDictAssign, he, pyDictGet, hek]
    | false =>
      have hek : pyEqPrim e.1 k = false := by
        cases hx : pyEqPrim e.1 k with
        | false => rfl
        | true =>
          have hk : pyEqPrim k ka = true := by
            rw [pyEqPrim_symm]; exact h
          have := pyEqPrim_trans hx hk
          rw [this] at he
          exact absurd he (by simp)
      simp [pyDictAssign, he, pyDictGet, hek, ih]

theorem pyDictGet_assign_ne (d : List (Obj × Obj)) (ka : Obj) (v : Obj)
    (k : Obj) (h : pyEqPrim ka k = false) :
    pyDictGet (pyDictAssign d ka v) k = pyDictGet d k := by
  induction d with
  | nil => simp [pyDictAssign, pyDictGet, h]
  | cons e t ih =>
    cases he : pyEqPrim e.1 ka with
    | true =>
      have hek : pyEqPrim e.1 k = false := by
        cases hx : pyEqPrim e.1 k with
        | false => rfl
        | true =>
          have h1 : pyEqPrim ka e.1 = true := by
            rw [pyEqPrim_symm]; exact he
          have := pyEqPrim_trans h1 hx
          rw [this] at h
          exact absurd h (by simp)
      simp [pyDictAssign, he, pyDictGet, hek]
    | false => simp [pyDictAssign, he, pyDictGet, ih]

theorem lastAssigned_concat (kvs : List (Obj × Obj)) (p : Obj × Obj)
    (k : Obj) :
    lastAssigned (kvs ++ [p]) k =
      if pyEqPrim p.1 k then some p.2 else lastAssigned kvs k := by
  cases hp : pyEqPrim p.1 k with
  | true => simp [lastAssigned, List.filter_append, hp]
  | false => simp [lastAssigned, List.filter_append, hp]

theorem pyDictGet_foldl_assign (kvs : List (Obj × Obj)) :
    ∀ k, (kvs.any (fun e => pyEqPrim e.1 k)) = true →
      pyDictGet (kvs.foldl (fun d kv => pyDictAssign d kv.1 kv.2) []) k =
        lastAssigned kvs k := by
  induction kvs using List.reverseRecOn with
  | nil => intro k hk; simp at hk
  | append_singleton kvs p ih =>
    intro k hk
    rw [List.foldl_append]
    simp only [List.foldl_cons, List.foldl_nil]
    rw [lastAssigned_concat]
    cases hp : pyEqPrim p.1 k with
    | true =>
      rw [pyDictGet_assign_eq _ _ _ _ hp]
      simp
    | false =>
      rw [pyDictGet_assign_ne _ _ _ _ hp]
      have hk' : (kvs.any (fun e => pyEqPrim e.1 k)) = true := by
        rcases List.any_eq_true.mp hk with ⟨e, he, hev⟩
        rcases List.mem_append.mp he with h | h
        · exact List.any_eq_true.mpr ⟨e, h, hev⟩
        · simp at h
          subst h
          simp [hp] at hev
      rw [ih k hk']
      simp

/--
C1: for every parsed configuration value whose toplevel consists of exactly
one child that is a single interpolation, evaluation returns the
interpolation's result unmodified (a node reference, possibly `None`, with
exceptions propagated); for every toplevel with surrounding text or more
than one child (that is, whenever the single-interpolation test fails),
evaluation returns the concatenation of the string rendering of each
child value.
-/
theorem c1_toplevel_single_interp_or_concat :
    (∀ r : Except Err VRes,
        GrammarVisitor.visitToplevel [TopChild.tinterp r] =
          (visitInterpolation r).map TRet.n)
    ∧
    (∀ (children : List TopChild) (vals : List TopVal),
        GrammarVisitor.isSingleInterp children = false →
        GrammarVisitor.visitChildrenTop children = .ok vals →
        GrammarVisitor.visitToplevel children =
          .ok (.s ((vals.map strOfTopVal).flatten))) := by
  constructor
  · intro r
    cases r with
    | error e => rfl
    | ok v => cases v <;> rfl
  · intro children vals h1 h2
    simp [GrammarVisitor.visitToplevel, h2, h1]

/-- Witness for C1: a toplevel with a text child and an interpolation
child concatenates the renderings. -/
theorem c1_witness :
    GrammarVisitor.isSingleInterp
        [TopChild.tstr (.ok ['a']), TopChild.tinterp (.ok .vNone)] = false ∧
    GrammarVisitor.visitToplevel
        [TopChild.tstr (.ok ['a']), TopChild.tinterp (.ok .vNone)] =
      .ok (.s ((([Sum.inl ['a'], Sum.inr Option.none] : List TopVal).map
        strOfTopVal).flatten)) :=
  ⟨rfl, c1_toplevel_single_interp_or_concat.2
    [TopChild.tstr (.ok ['a']), TopChild.tinterp (.ok .vNone)]
    [Sum.inl ['a'], Sum.inr Option.none] rfl rfl⟩

/--
C8: the result of the interpolation visitor is always either `None` or a
`Node` — a bare value coming back from the container trips the assert
instead of being returned — so consumers unwrap it with `_get_value`
before use, and a single-interpolation toplevel may evaluate to `None`.
-/
theorem c8_interpolation_none_or_node :
    (∀ o : Obj,
        visitInterpolation (.ok (.vObj o)) = .error .assertionError)
    ∧ (∀ n : NodeObj, visitInterpolation (.ok (.vNode n)) = .ok (some n))
    ∧ visitInterpolation (.ok .vNone) = .ok Option.none
    ∧ (∀ (r : Except Err VRes) (onode : Option NodeObj),
        visitInterpolation r = .ok onode →
        onode = Option.none ∨ ∃ n, onode = some n)
    ∧ (∀ s rend : Chars,
        InterpolationVisitor.visitConfigKey
          (ConfigKeySrc.interp (.ok (.vNode ⟨Obj.str s, rend⟩))) = .ok s)
    ∧ GrammarVisitor.visitToplevel [TopChild.tinterp (.ok .vNone)] =
        .ok (.n Option.none) := by
  refine ⟨fun o => rfl, fun n => rfl, rfl, ?_, fun s rend => rfl, rfl⟩
  intro r onode _
  cases onode with
  | none => exact Or.inl rfl
  | some n => exact Or.inr ⟨n, rfl⟩

/-- Witness for C8: the invariant at a concrete accepted result. -/
theorem c8_witness :
    (Option.none : Option NodeObj) = Option.none ∨
      ∃ n : NodeObj, (Option.none : Option NodeObj) = some n :=
  c8_interpolation_none_or_node.2.2.2.1 (.ok .vNone) Option.none rfl

/--
C4: for every `toplevelStr`, evaluation concatenates the terminal texts
with escape reduction: an `ESC` token whose text is a sequence of
backslash-character pairs contributes the character after each backslash
(so the escaped dollar-brace yields the dollar-brace and the double
backslash yields one backslash), an `ESC_INTER` token contributes its text
with only the leading backslash stripped, and every other token
contributes its text verbatim.
-/
theorem c4_toplevel_str_escape_reduction :
    (∀ (cs : Chars) (toks : List Tok),
        GrammarVisitor.visitToplevelStr (⟨TokType.ESC, escPairs cs⟩ :: toks) =
          (GrammarVisitor.visitToplevelStr toks).map (fun tail => cs ++ tail))
    ∧
    (∀ (t : Chars) (toks : List Tok),
        GrammarVisitor.visitToplevelStr (⟨TokType.ESC_INTER, t⟩ :: toks) =
          (GrammarVisitor.visitToplevelStr toks).map
            (fun tail => t.drop 1 ++ tail))
    ∧
    (∀ (ty : TokType) (t : Chars) (toks : List Tok),
        ty ≠ TokType.ESC → ty ≠ TokType.ESC_INTER →
        GrammarVisitor.visitToplevelStr (⟨ty, t⟩ :: toks) =
          (GrammarVisitor.visitToplevelStr toks).map (fun tail => t ++ tail))
    ∧
    GrammarVisitor.visitToplevelStr
        [⟨TokType.ESC, [bslash, '$']⟩, ⟨TokType.TOP_CHAR, ['{']⟩] =
      .ok ['$', '{']
    ∧
    GrammarVisitor.visitToplevelStr [⟨TokType.ESC, [bslash, bslash]⟩] =
      .ok [bslash] := by
  refine ⟨?_, ?_, ?_, rfl, rfl⟩
  · intro cs toks
    simp only [GrammarVisitor.visitToplevelStr, List.map_cons,
      GrammarVisitor._unescape]
    cases h : GrammarVisitor._unescape
        (List.map GrammarVisitor.UnescItem.term toks) with
    | error e => rfl
    | ok tail =>
      rw [pyTextFrom1Step2_escPairs]
      rfl
  · intro t toks
    simp only [GrammarVisitor.visitToplevelStr, List.map_cons,
      GrammarVisitor._unescape]
    cases h : GrammarVisitor._unescape
        (List.map GrammarVisitor.UnescItem.term toks) with
    | error e => rfl
    | ok tail => rfl
  · intro ty t toks h1 h2
    simp only [GrammarVisitor.visitToplevelStr, List.map_cons,
      GrammarVisitor._unescape]
    cases h : GrammarVisitor._unescape
        (List.map GrammarVisitor.UnescItem.term toks) with
    | error e => rfl
    | ok tail =>
      cases ty <;>
        first
          | exact absurd rfl h1
          | exact absurd rfl h2
          | rfl

/-- Witness for C4: a verbatim token at a concrete input. -/
theorem c4_witness :
    TokType.ID ≠ TokType.ESC ∧ TokType.ID ≠ TokType.ESC_INTER ∧
    GrammarVisitor.visitToplevelStr [⟨TokType.ID, ['h', 'i']⟩] =
      (GrammarVisitor.visitToplevelStr []).map
        (fun tail => ['h', 'i'] ++ tail) :=
  ⟨by decide, by decide,
    c4_toplevel_str_escape_reduction.2.2.1 TokType.ID ['h', 'i'] []
      (by decide) (by decide)⟩

theorem renderNodeParts_dot_cons (rest : List GrammarVisitor.NodePart) :
    GrammarVisitor.renderNodeParts (GrammarVisitor.NodePart.dot :: rest) =
      (GrammarVisitor.renderNodeParts rest).map (fun vs => ['.'] :: vs) := by
  cases h : GrammarVisitor.renderNodeParts rest with
  | error e =>
    simp only [GrammarVisitor.renderNodeParts, h]
    rfl
  | ok vs =>
    simp only [GrammarVisitor.renderNodeParts, h]
    rfl

theorem renderNodeParts_key_term_cons (s : Chars)
    (rest : List GrammarVisitor.NodePart) :
    GrammarVisitor.renderNodeParts
        (GrammarVisitor.NodePart.key (ConfigKeySrc.term s) :: rest) =
      (GrammarVisitor.renderNodeParts rest).map (fun vs => s :: vs) := by
  cases h : GrammarVisitor.renderNodeParts rest with
  | error e =>
    simp only [GrammarVisitor.renderNodeParts, h]
    rfl
  | ok vs =>
    simp only [GrammarVisitor.renderNodeParts, h]
    rfl

theorem renderNodeParts_term_segs (segs : List Chars) :
    GrammarVisitor.renderNodeParts
        ((segs.map (fun s => GrammarVisitor.NodePart.key
          (ConfigKeySrc.term s))).intersperse GrammarVisitor.NodePart.dot) =
      .ok (segs.intersperse ['.']) := by
  induction segs with
  | nil => rfl
  | cons s1 rest ih =>
    cases rest with
    | nil => rfl
    | cons s2 rest2 =>
      simp only [List.map_cons, List.intersperse_cons_cons]
      rw [renderNodeParts_key_term_cons, renderNodeParts_dot_cons]
      simp only [List.map_cons] at ih
      rw [ih]
      rfl

theorem renderNodeParts_replicate_dots (lead : ℕ)
    (rest : List GrammarVisitor.NodePart) (toks : List Chars)
    (h : GrammarVisitor.renderNodeParts rest = .ok toks) :
    GrammarVisitor.renderNodeParts
        (List.replicate lead GrammarVisitor.NodePart.dot ++ rest) =
      .ok (List.replicate lead ['.'] ++ toks) := by
  induction lead with
  | zero => simpa using h
  | succ n ih =>
    simp only [List.replicate_succ, List.cons_append]
    rw [renderNodeParts_dot_cons, ih]
    rfl

theorem seqConfigKeys_map_term (keys : List Chars) :
    InterpolationVisitor.seqConfigKeys (keys.map ConfigKeySrc.term) =
      .ok keys := by
  induction keys with
  | nil => rfl
  | cons k rest ih =>
    simp only [List.map_cons, InterpolationVisitor.seqConfigKeys,
      InterpolationVisitor.visitConfigKey, ih]
    rfl

/--
C2 (amended): for every node interpolation, evaluation assembles the
lookup key by visiting each configKey segment, preserving the dots between
segments verbatim in the joined string, and dispatches exactly one call to
the container's simple-interpolation resolver with `inter_key` the
one-element tuple containing the joined path; `GrammarVisitor` passes
`inter_type=None`, while the legacy `InterpolationVisitor` passes
`inter_type="str:"`.
-/
theorem c2_node_interpolation_dispatch :
    (∀ (env : SimpleEnv) (parts : List GrammarVisitor.NodePart)
        (toks : List Chars),
        GrammarVisitor.renderNodeParts parts = .ok toks →
        GrammarVisitor.visitInterpolationNode env parts =
          (contLift (env ⟨Option.none, [Obj.str toks.flatten], Option.none⟩),
            [⟨Option.none, [Obj.str toks.flatten], Option.none⟩]))
    ∧
    (∀ (lead : ℕ) (segs : List Chars),
        GrammarVisitor.renderNodeParts
            (List.replicate lead GrammarVisitor.NodePart.dot ++
              (segs.map (fun s => GrammarVisitor.NodePart.key
                (ConfigKeySrc.term s))).intersperse
                GrammarVisitor.NodePart.dot) =
          .ok (List.replicate lead ['.'] ++ segs.intersperse ['.']))
    ∧
    (∀ (env : SimpleEnv) (keys : List Chars),
        InterpolationVisitor.visitInterpolationNode env
            (keys.map ConfigKeySrc.term) =
          (contLift (env ⟨some ("str:".toList),
              [Obj.str (List.intercalate ['.'] keys)], Option.none⟩),
            [⟨some ("str:".toList),
              [Obj.str (List.intercalate ['.'] keys)], Option.none⟩])) := by
  refine ⟨?_, ?_, ?_⟩
  · intro env parts toks h
    simp [GrammarVisitor.visitInterpolationNode, h]
  · intro lead segs
    exact renderNodeParts_replicate_dots lead _ _ (renderNodeParts_term_segs segs)
  · intro env keys
    simp [InterpolationVisitor.visitInterpolationNode,
      seqConfigKeys_map_term, List.intercalate]

/-- Witness for C2 at a concrete relative path with one dot and one
segment. -/
theorem c2_witness :
    GrammarVisitor.renderNodeParts
        [GrammarVisitor.NodePart.dot,
          GrammarVisitor.NodePart.key (ConfigKeySrc.term ['a'])] =
      .ok [['.'], ['a']] ∧
    GrammarVisitor.visitInterpolationNode env0
        [GrammarVisitor.NodePart.dot,
          GrammarVisitor.NodePart.key (ConfigKeySrc.term ['a'])] =
      (contLift (env0 ⟨Option.none, [Obj.str ([['.'], ['a']] : List Chars).flatten],
          Option.none⟩),
        [⟨Option.none, [Obj.str ([['.'], ['a']] : List Chars).flatten],
          Option.none⟩]) :=
  ⟨rfl, c2_node_interpolation_dispatch.1 env0
    [GrammarVisitor.NodePart.dot,
      GrammarVisitor.NodePart.key (ConfigKeySrc.term ['a'])]
    [['.'], ['a']] rfl⟩

/--
C2 counterexample: at the concrete node interpolation with the single
segment `a`, the `InterpolationVisitor` cited by the claim dispatches its
one container call with `inter_type="str:"`, which is not `None`.
-/
theorem c2_counterexample :
    (InterpolationVisitor.visitInterpolationNode env0
        [ConfigKeySrc.term ['a']]).2 =
      [⟨some ("str:".toList), [Obj.str ['a']], Option.none⟩] ∧
    (some ("str:".toList) : Option Chars) ≠ Option.none := by
  refine ⟨rfl, ?_⟩
  intro h
  cases h

/--
C3: for every `QUOTED_VALUE` lexeme (delimiter included, first and last
character the same single or double quote), evaluation strips the
enclosing quotes and un-escapes the content in exactly two ordered passes
(first the backslash-quote pair to the quote, then the double backslash to
one backslash — together equivalent to the single scan `unescapeScan`),
re-parses the un-escaped content through the evaluator as a plain TOPLEVEL
string, and casts the final result to string.
-/
theorem c3_quoted_value_two_pass_unescape :
    ∀ (reparse : ReparseFn) (q0 : Char) (mid : Chars),
      q0 = squote ∨ q0 = dquote →
      GrammarVisitor._resolve_quoted_string reparse (q0 :: (mid ++ [q0])) =
        (match reparse (unescapeScan q0 mid) with
          | .error n => .error (.containerError n)
          | .ok v => .ok (strOfTRet v))
      ∧ pyReplace2 bslash bslash [bslash] (pyReplace2 bslash q0 [q0] mid) =
          unescapeScan q0 mid := by
  intro reparse q0 mid hq
  have hqb : q0 ≠ bslash := by
    rcases hq with h | h <;> subst h <;> decide
  have htp := twoPass_eq_unescapeScan q0 hqb mid
  refine ⟨?_, htp⟩
  simp only [GrammarVisitor._resolve_quoted_string]
  rw [if_pos ⟨by simp, hq⟩, List.dropLast_concat, htp]

/-- Witness for C3: a double-quoted lexeme whose body holds an escaped
backslash followed by an escaped quote. -/
theorem c3_witness :
    (dquote = squote ∨ dquote = dquote) ∧
    GrammarVisitor._resolve_quoted_string reparse0
        (dquote :: ([bslash, bslash, dquote, 'x'] ++ [dquote])) =
      .ok [bslash, dquote, 'x'] := by
  refine ⟨Or.inr rfl, ?_⟩
  have h := (c3_quoted_value_two_pass_unescape reparse0 dquote
    [bslash, bslash, dquote, 'x'] (Or.inr rfl)).1
  rw [h]
  rfl

theorem contLift_ne_typeError (x : Except Nat VRes) :
    contLift x ≠ .error .interpolationTypeError := by
  cases x <;> simp [contLift]

/--
C5: evaluation fails with `InterpolationTypeError` exactly when a
non-string value is used where a key segment or resolver name is required
(an interpolation inside a `configKey` or in resolver-name position
resolving to a non-string value) or when a dict-literal key given as an
interpolation resolves to the float `NaN` — besides the propagation of an
`InterpolationTypeError` already raised inside a child — and in each
failing case no resolver dispatch or container lookup is performed for the
enclosing interpolation (the recorded call list is empty).
-/
theorem c5_interpolation_type_error_exactly :
    (∀ r : Except Err VRes,
        InterpolationVisitor.visitConfigKey (ConfigKeySrc.interp r) =
            .error .interpolationTypeError ↔
          visitInterpolation r = .error .interpolationTypeError ∨
            ∃ onode, visitInterpolation r = .ok onode ∧
              (_get_value onode).isStr = false)
    ∧
    (∀ t : Chars,
        InterpolationVisitor.visitConfigKey (ConfigKeySrc.term t) = .ok t)
    ∧
    (∀ r : Except Err VRes,
        InterpolationVisitor.resolverNameOf (ResolverNameSrc.interp r) =
            .error .interpolationTypeError ↔
          visitInterpolation r = .error .interpolationTypeError ∨
            ∃ onode, visitInterpolation r = .ok onode ∧
              (_get_value onode).isStr = false)
    ∧
    (∀ (env : SimpleEnv) (nameSrc : ResolverNameSrc)
        (args : List (Except Err Obj × Chars)) (e : Err),
        InterpolationVisitor.resolverNameOf nameSrc = .error e →
        InterpolationVisitor.visitInterpolationResolver env nameSrc args =
          (.error e, []))
    ∧
    (∀ (env : SimpleEnv) (nameSrc : ResolverNameSrc)
        (args : List (Except Err Obj × Chars)) (nm : Chars) (e : Err),
        InterpolationVisitor.resolverNameOf nameSrc = .ok nm →
        visitSequenceVals args = .error e →
        InterpolationVisitor.visitInterpolationResolver env nameSrc args =
          (.error e, []))
    ∧
    (∀ (env : SimpleEnv) (nameSrc : ResolverNameSrc)
        (args : List (Except Err Obj × Chars)),
        (InterpolationVisitor.visitInterpolationResolver env nameSrc args).1 =
            .error .interpolationTypeError ↔
          InterpolationVisitor.resolverNameOf nameSrc =
              .error .interpolationTypeError ∨
            ∃ nm, InterpolationVisitor.resolverNameOf nameSrc = .ok nm ∧
              visitSequenceVals args = .error .interpolationTypeError)
    ∧
    (∀ (r : Except Err VRes) (vr : Except Err Obj),
        InterpolationVisitor.visitKeyValuePair (DictKeySrc.interp r) vr =
            .error .interpolationTypeError ↔
          visitInterpolation r = .error .interpolationTypeError ∨
            (∃ onode, visitInterpolation r = .ok onode ∧
              (_get_value onode).isNan = true) ∨
            (∃ onode, visitInterpolation r = .ok onode ∧
              (_get_value onode).isNan = false ∧
              vr = .error .interpolationTypeError))
    ∧
    (∀ (t : Chars) (vr : Except Err Obj),
        InterpolationVisitor.visitKeyValuePair (DictKeySrc.id t) vr =
            .error .interpolationTypeError ↔
          vr = .error .interpolationTypeError)
    ∧
    (∀ (env : SimpleEnv) (keys : List ConfigKeySrc) (e : Err),
        InterpolationVisitor.seqConfigKeys keys = .error e →
        InterpolationVisitor.visitInterpolationNode env keys =
          (.error e, [])) := by
  refine ⟨?_, fun t => rfl, ?_, ?_, ?_, ?_, ?_, ?_, ?_⟩
  · intro r
    cases hv : visitInterpolation r with
    | error e =>
      simp [InterpolationVisitor.visitConfigKey, hv]
    | ok onode =>
      cases ho : _get_value onode <;>
        simp [InterpolationVisitor.visitConfigKey, hv, ho, Obj.isStr]
  · intro r
    cases hv : visitInterpolation r with
    | error e =>
      simp [InterpolationVisitor.resolverNameOf, hv]
    | ok onode =>
      cases ho : _get_value onode <;>
        simp [InterpolationVisitor.resolverNameOf, hv, ho, Obj.isStr]
  · intro env nameSrc args e h
    simp [InterpolationVisitor.visitInterpolationResolver, h]
  · intro env nameSrc args nm e h1 h2
    simp [InterpolationVisitor.visitInterpolationResolver, h1, h2]
  · intro env nameSrc args
    cases hn : InterpolationVisitor.resolverNameOf nameSrc with
    | error e =>
      simp [InterpolationVisitor.visitInterpolationResolver, hn]
    | ok nm =>
      cases hs : visitSequenceVals args with
      | error e =>
        simp [InterpolationVisitor.visitInterpolationResolver, hn, hs]
      | ok vt =>
        simp [InterpolationVisitor.visitInterpolationResolver, hn, hs,
          contLift_ne_typeError]
  · intro r vr
    cases hv : visitInterpolation r with
    | error e =>
      simp [InterpolationVisitor.visitKeyValuePair, hv, Bind.bind,
        Except.bind]
    | ok onode =>
      cases hn : (_get_value onode).isNan with
      | true =>
        simp [InterpolationVisitor.visitKeyValuePair, hv, hn, Bind.bind,
          Except.bind]
      | false =>
        cases vr with
        | error e =>
          simp [InterpolationVisitor.visitKeyValuePair, hv, hn, Bind.bind,
            Except.bind]
        | ok v =>
          simp [InterpolationVisitor.visitKeyValuePair, hv, hn, Bind.bind,
            Except.bind]
  · intro t vr
    cases vr with
    | error e =>
      simp [InterpolationVisitor.visitKeyValuePair, Bind.bind, Except.bind]
    | ok v =>
      simp [InterpolationVisitor.visitKeyValuePair, Bind.bind, Except.bind]
  · intro env keys e h
    simp [InterpolationVisitor.visitInterpolationNode, h]

/-- Witness for C5: a node interpolation whose key segment resolved to the
integer 1 fails with `InterpolationTypeError` and performs no container
lookup. -/
theorem c5_witness :
    InterpolationVisitor.seqConfigKeys
        [ConfigKeySrc.interp (.ok (.vNode ⟨Obj.int 1, ['1']⟩))] =
      .error .interpolationTypeError ∧
    InterpolationVisitor.visitInterpolationNode env0
        [ConfigKeySrc.interp (.ok (.vNode ⟨Obj.int 1, ['1']⟩))] =
      (.error .interpolationTypeError, []) :=
  ⟨rfl, c5_interpolation_type_error_exactly.2.2.2.2.2.2.2.2 env0
    [ConfigKeySrc.interp (.ok (.vNode ⟨Obj.int 1, ['1']⟩))]
    .interpolationTypeError rfl⟩

theorem visitDictValueAux_eq_foldl :
    ∀ (pairs : List (DictKeySrc × Except Err Obj)) (kvs : List (Obj × Obj))
      (d0 : List (Obj × Obj)),
      GrammarVisitor.seqKVPairs pairs = .ok kvs →
      (∀ kv ∈ kvs, isHashable kv.1 = true) →
      GrammarVisitor.visitDictValueAux d0 pairs =
        .ok (kvs.foldl (fun d kv => pyDictAssign d kv.1 kv.2) d0) := by
  intro pairs
  induction pairs with
  | nil =>
    intro kvs d0 h1 h2
    simp only [GrammarVisitor.seqKVPairs] at h1
    cases h1
    rfl
  | cons p rest ih =>
    intro kvs d0 h1 h2
    obtain ⟨ks, vr⟩ := p
    cases hkv : GrammarVisitor.visitDictKeyValuePair ks vr with
    | error e =>
      rw [show GrammarVisitor.seqKVPairs ((ks, vr) :: rest) =
          Except.error e by
        simp [GrammarVisitor.seqKVPairs, hkv, Bind.bind, Except.bind]] at h1
      cases h1
    | ok kv =>
      cases hrest : GrammarVisitor.seqKVPairs rest with
      | error e =>
        rw [show GrammarVisitor.seqKVPairs ((ks, vr) :: rest) =
            Except.error e by
          simp [GrammarVisitor.seqKVPairs, hkv, hrest, Bind.bind,
            Except.bind]] at h1
        cases h1
      | ok kvs2 =>
        rw [show GrammarVisitor.seqKVPairs ((ks, vr) :: rest) =
            Except.ok (kv :: kvs2) by
          simp [GrammarVisitor.seqKVPairs, hkv, hrest, Bind.bind,
            Except.bind]] at h1
        cases h1
        have hhead : isHashable kv.1 = true := h2 kv (by simp)
        simp only [GrammarVisitor.visitDictValueAux, hkv, hhead,
          if_true, List.foldl_cons]
        exact ih kvs2 (pyDictAssign d0 kv.1 kv.2) hrest
          (fun x hx => h2 x (by simp [hx]))

/--
C9: for every dict literal in resolver arguments whose pairs all evaluate
(and whose keys are hashable), evaluation succeeds without raising an
error, the key-value pairs being evaluated left to right; whenever a key
occurs (possibly more than once), the resulting dictionary maps it to the
value of its last (rightmost) occurrence.
-/
theorem c9_dict_duplicate_key_last_wins :
    ∀ (pairs : List (DictKeySrc × Except Err Obj)) (kvs : List (Obj × Obj)),
      GrammarVisitor.seqKVPairs pairs = .ok kvs →
      (∀ kv ∈ kvs, isHashable kv.1 = true) →
      ∃ d, GrammarVisitor.visitDictValue pairs = .ok d ∧
        ∀ k, (kvs.any (fun e => pyEqPrim e.1 k)) = true →
          pyDictGet d k = lastAssigned kvs k := by
  intro pairs kvs h1 h2
  refine ⟨kvs.foldl (fun d kv => pyDictAssign d kv.1 kv.2) [], ?_, ?_⟩
  · exact visitDictValueAux_eq_foldl pairs kvs [] h1 h2
  · intro k hk
    exact pyDictGet_foldl_assign kvs k hk

/-- Witness for C9: the key `a` occurs twice; the dict maps it to the
second value. -/
theorem c9_witness :
    GrammarVisitor.seqKVPairs pairs0 = .ok kvs0 ∧
    ∃ d, GrammarVisitor.visitDictValue pairs0 = .ok d ∧
      ∀ k, (kvs0.any (fun e => pyEqPrim e.1 k)) = true →
        pyDictGet d k = lastAssigned kvs0 k :=
  ⟨rfl, c9_dict_duplicate_key_last_wins pairs0 kvs0 rfl (by decide)⟩

/--
C6 counterexample: with the variable `X` unset and the integer 5 supplied
as default, the claim predicts the string `5` is returned, but `env`
raises `TypeError` (the code rejects any default that is neither `None`
nor a string, before the variable is even looked up).
-/
theorem c6_counterexample :
    env (fun _ => Option.none) ['X'] (.given (Obj.int 5)) =
      .error .typeError ∧
    env (fun _ => Option.none) ['X'] (.given (Obj.int 5)) ≠
      .ok (Obj.str ['5']) := by
  refine ⟨rfl, ?_⟩
  intro h
  rw [show env (fun _ => Option.none) ['X'] (.given (Obj.int 5)) =
    .error .typeError from rfl] at h
  cases h

/--
C6 (amended): for every call `env(key, default?)`: a default that is
neither `None` nor a string fails with `TypeError` at invocation time,
before the variable lookup; otherwise, if the environment variable named
`key` is set, the resolver returns its raw string value with no type
coercion; if it is unset and a default was supplied, the resolver returns
`None` when the default is `None` and otherwise the string default
unchanged; if it is unset and no default was supplied, it fails with
`KeyError` whose message is `Environment variable '<key>' not found`.
-/
theorem c6_env_resolver :
    ∀ (environ : Chars → Option Chars) (key : Chars),
      (∀ v, environ key = some v →
        env environ key .marker = .ok (.str v)) ∧
      (environ key = Option.none →
        env environ key .marker = .error (.keyError (envKeyErrorMsg key))) ∧
      (∀ v, environ key = some v →
        env environ key (.given Obj.none) = .ok (.str v)) ∧
      (environ key = Option.none →
        env environ key (.given Obj.none) = .ok Obj.none) ∧
      (∀ s v, environ key = some v →
        env environ key (.given (.str s)) = .ok (.str v)) ∧
      (∀ s, environ key = Option.none →
        env environ key (.given (.str s)) = .ok (.str s)) ∧
      (∀ d, d ≠ Obj.none → d.isStr = false →
        env environ key (.given d) = .error .typeError) := by
  intro environ key
  refine ⟨?_, ?_, ?_, ?_, ?_, ?_, ?_⟩
  · intro v h; simp [env, h]
  · intro h; simp [env, h]
  · intro v h; simp [env, h]
  · intro h; simp [env, h]
  · intro s v h; simp [env, h]
  · intro s h; simp [env, h]
  · intro d h1 h2
    cases d <;> simp_all [env, Obj.isStr]

/-- Witness for C6: `PATH` is set in `environ0`, an unset variable with a
string default falls back to it, and an integer default raises. -/
theorem c6_witness :
    environ0 ("PATH".toList) = some ("/usr/bin".toList) ∧
    env environ0 ("PATH".toList) .marker = .ok (.str ("/usr/bin".toList)) ∧
    env environ0 ['X'] (.given (.str ['d'])) = .ok (.str ['d']) ∧
    env environ0 ['X'] (.given (Obj.bool true)) = .error .typeError := by
  refine ⟨rfl, ?_, ?_, ?_⟩
  · exact (c6_env_resolver environ0 ("PATH".toList)).1 ("/usr/bin".toList) rfl
  · exact (c6_env_resolver environ0 ['X']).2.2.2.2.2.1 ['d'] rfl
  · exact (c6_env_resolver environ0 ['X']).2.2.2.2.2.2 (Obj.bool true)
      (by intro h; cases h) rfl

/--
C7: for every input `expr`, `oc.decode(expr)` returns `None` when `expr`
is `None`; fails with `TypeError` exactly when `expr` is neither `None`
nor a string (the embedding is a pure function, so no other state
changes); and otherwise parses `expr` with the `singleElement` grammar
rule in `VALUE_MODE` lexer mode and returns the unwrapped value obtained
by evaluating the resulting parse tree.
-/
theorem c7_decode :
    ∀ {T : Type} (parse : Chars → ParserRule → LexerMode → T)
      (resolveParseTree : T → VRes) (expr : Obj),
      (decode parse resolveParseTree Obj.none = .ok Obj.none) ∧
      (∀ s, decode parse resolveParseTree (Obj.str s) =
        .ok (_get_value_any
          (resolveParseTree (parse s .singleElement .VALUE_MODE)))) ∧
      (expr ≠ Obj.none → expr.isStr = false →
        decode parse resolveParseTree expr = .error .typeError) ∧
      (decode parse resolveParseTree expr = .error .typeError →
        expr ≠ Obj.none ∧ expr.isStr = false) := by
  intro T parse resolveParseTree expr
  refine ⟨rfl, fun s => rfl, ?_, ?_⟩
  · intro h1 h2
    cases expr <;> simp_all [decode, Obj.isStr]
  · intro h
    cases expr <;> simp_all [decode, Obj.isStr]

/-- Witness for C7: decode of `None`, of a string, and of a list. -/
theorem c7_witness :
    decode parse0 resolveParseTree0 Obj.none = .ok Obj.none ∧
    decode parse0 resolveParseTree0 (Obj.str ['4', '2']) =
      .ok (_get_value_any
        (resolveParseTree0 (parse0 ['4', '2'] .singleElement .VALUE_MODE))) ∧
    decode parse0 resolveParseTree0 (Obj.list []) = .error .typeError := by
  refine ⟨(c7_decode parse0 resolveParseTree0 Obj.none).1,
    (c7_decode parse0 resolveParseTree0 Obj.none).2.1 ['4', '2'], ?_⟩
  exact (c7_decode parse0 resolveParseTree0 (Obj.list [])).2.2.1
    (by intro h; cases h) rfl

/--
C10: for every message string, a `ConfigKeyError` constructed with it has
`str()` equal to the message exactly and stores it unchanged in its `msg`
attribute (and as the single exception argument), while the quoted `repr`
a plain Python `KeyError` would print is never equal to the message.
-/
theorem c10_config_key_error_str :
    ∀ msg : Chars,
      (ConfigKeyError.init msg).msg = msg ∧
      (ConfigKeyError.init msg).toStr = msg ∧
      (ConfigKeyError.init msg).args = [Obj.str msg] ∧
      plainKeyErrorToStr msg ≠ msg := by
  intro msg
  refine ⟨rfl, rfl, rfl, ?_⟩
  intro h
  have hlen := congrArg List.length h
  simp only [plainKeyErrorToStr, pyReprStr, List.length_cons,
    List.length_append, List.length_singleton] at hlen
  have hesc : ∀ (q c : Char), 1 ≤ (pyReprEsc q c).length := by
    intro q c
    unfold pyReprEsc
    split <;> simp
  have hge := flatMap_length_ge
    (pyReprEsc (if squote ∈ msg ∧ ¬ dquote ∈ msg then dquote else squote))
    (fun c => hesc _ c) msg
  omega

/-- Witness for C10 at a concrete message. -/
theorem c10_witness :
    (ConfigKeyError.init ['k']).msg = ['k'] ∧
    (ConfigKeyError.init ['k']).toStr = ['k'] ∧
    (ConfigKeyError.init ['k']).args = [Obj.str ['k']] ∧
    plainKeyErrorToStr ['k'] ≠ ['k'] :=
  c10_config_key_error_str ['k']
